import Mathlib

/-!
Verification of the mesh converter `src/mesh_convertor.py`.

The program is embedded shallowly: Python strings become `List Char`,
numpy coordinate rows become `List Rat`, meshio cell blocks become
`CellBlock`, and the fallible meshio accessors return `Option`.  The
command-line entry point `main` is embedded as a pure function from the
parsed arguments and two oracles (the result of reading the input file,
and whether a write to a given path succeeds) to the ordered trace of
externally visible steps together with the final outcome.
-/

/-! ## String operations used by the converter -/

/-- The literal suffix checked on the input path, the characters of the
Python string literal dot-m-s-h. -/
def mshSuffix : List Char := ['.', 'm', 's', 'h']

/-- The literal suffix checked on the output path and the pattern of the
`replace` call, the characters of the Python string literal dot-x-d-m-f. -/
def xdmfSuffix : List Char := ['.', 'x', 'd', 'm', 'f']

/-- The replacement string of the `replace` call on line 58 of the source,
the characters of the Python literal underscore-f-a-c-e-t-dot-x-d-m-f. -/
def facetRepl : List Char := ['_', 'f', 'a', 'c', 'e', 't', '.', 'x', 'd', 'm', 'f']

/-- Python `s.endswith(pat)`: the last `pat.length` characters of `s`
equal `pat` (false when `s` is shorter than `pat`). -/
def pyEndsWith (pat s : List Char) : Bool :=
  s.drop (s.length - pat.length) == pat

/-- Worker for Python `s.replace('.xdmf', '_facet.xdmf')`: scan left to
right, replace each non-overlapping occurrence of the pattern and resume
after the replaced occurrence.  `fuel` bounds the recursion; any
`fuel ≥ s.length` computes the replacement (each step consumes at least
one character and one unit of fuel). -/
def replaceAux : Nat → List Char → List Char
  | 0, s => s
  | _ + 1, [] => []
  | fuel + 1, c :: rest =>
    if xdmfSuffix.isPrefixOf (c :: rest) then
      facetRepl ++ replaceAux fuel (rest.drop 4)
    else
      c :: replaceAux fuel rest

/-- Python `s.replace('.xdmf', '_facet.xdmf')` (line 58 of the source):
every non-overlapping occurrence of `.xdmf`, scanned left to right, is
replaced by `_facet.xdmf`. -/
def pyReplaceXdmf (s : List Char) : List Char := replaceAux s.length s

/-! ## Data model: meshio meshes -/

/-- One meshio cell block: a cell-kind label and the connectivity rows
(one row of node indices per element) of that block. -/
structure CellBlock where
  kind : String
  data : List (List Nat)
  deriving DecidableEq

/-- The source mesh as loaded by `meshio.read`: points (one coordinate
row per point), the ordered cell blocks, and the cell-data mapping from
a data name to one tag array per cell block (positionally aligned with
`cells`). -/
structure SourceMesh where
  points : List (List Rat)
  cells : List CellBlock
  cell_data : List (String × List (List Int))
  deriving DecidableEq

/-- An output mesh as built by the `meshio.Mesh` constructor call in
`create_mesh`: points, a cells mapping and a cell-data mapping. -/
structure OutputMesh where
  points : List (List Rat)
  cells : List (String × List (List Nat))
  cell_data : List (String × List (List Int))
  deriving DecidableEq

/-- meshio `mesh.get_cells_type(cell_type)`: the concatenation of the
connectivity rows of every cell block whose kind matches; empty when no
block matches (this accessor never fails). -/
def get_cells_type (mesh : SourceMesh) (cell_type : String) : List (List Nat) :=
  ((mesh.cells.filter (fun b => b.kind == cell_type)).map (fun b => b.data)).flatten

/-- meshio `mesh.get_cell_data(name, cell_type)`: looks the data name up
in `cell_data` (a missing name raises, modelled as `none`), pairs the
per-block tag arrays with the cell blocks, keeps those of matching kind
and concatenates them; when no block matches, the underlying
concatenation of an empty list raises, modelled as `none`. -/
def get_cell_data (mesh : SourceMesh) (name cell_type : String) : Option (List Int) :=
  match List.lookup name mesh.cell_data with
  | none => none
  | some ds =>
    let matched := ((mesh.cells.zip ds).filter (fun pr => pr.1.kind == cell_type)).map
      (fun pr => pr.2)
    if matched.isEmpty then none else some matched.flatten

/-- `create_mesh` (lines 15-21 of the source): extract the connectivity
of the requested kind, the aligned physical tags, prune the points to
their first two components when `prune_z` is set, and assemble the
output mesh with a single cells entry and a single wrapped cell-data
entry under the key name-to-read.  A failing tag lookup propagates. -/
def create_mesh (mesh : SourceMesh) (cell_type : String) (prune_z : Bool) :
    Option OutputMesh :=
  match get_cell_data mesh "gmsh:physical" cell_type with
  | none => none
  | some cd =>
    some ⟨if prune_z then mesh.points.map (fun p => p.take 2) else mesh.points,
          [(cell_type, get_cells_type mesh cell_type)],
          [("name_to_read", [cd])]⟩

/-! ## State-passing version of `create_mesh`

To express that `create_mesh` does not mutate the source mesh, the same
code is embedded once more with the mesh state threaded explicitly
through each meshio accessor, in the statement order of the Python body.
Each accessor returns the post-call mesh state alongside its result; the
meshio accessors are reads by their contract. -/

/-- State-passing `mesh.get_cells_type(cell_type)`. -/
def get_cells_type_st (mesh : SourceMesh) (cell_type : String) :
    SourceMesh × List (List Nat) :=
  (mesh, get_cells_type mesh cell_type)

/-- State-passing `mesh.get_cell_data(name, cell_type)`. -/
def get_cell_data_st (mesh : SourceMesh) (name cell_type : String) :
    SourceMesh × Option (List Int) :=
  (mesh, get_cell_data mesh name cell_type)

/-- State-passing `create_mesh`: returns the mesh state after the call
together with the result (`none` when the tag lookup raised). -/
def create_mesh_st (mesh0 : SourceMesh) (cell_type : String) (prune_z : Bool) :
    SourceMesh × Option OutputMesh :=
  match get_cells_type_st mesh0 cell_type with
  | (mesh1, cells) =>
    match get_cell_data_st mesh1 "gmsh:physical" cell_type with
    | (mesh2, none) => (mesh2, none)
    | (mesh2, some cd) =>
      (mesh2, some ⟨if prune_z then mesh2.points.map (fun p => p.take 2) else mesh2.points,
                    [(cell_type, cells)], [("name_to_read", [cd])]⟩)

/-! ## The command-line entry point -/

/-- The parsed command-line arguments of the converter. -/
structure Args where
  mesh_full_path : List Char
  output_full_path : List Char
  mesh_dim : Nat
  deg : Nat
  deriving DecidableEq

/-- The argparse choices restriction: `mesh_dim` is one of 2 and 3 and
`deg` one of 1 and 2; argparse rejects anything else before the body of
`main` runs. -/
def validArgs (a : Args) : Prop :=
  (a.mesh_dim = 2 ∨ a.mesh_dim = 3) ∧ (a.deg = 1 ∨ a.deg = 2)

/-- Line 46 of the source: `prune_z = True if args.mesh_dim==2 else False`. -/
def pruneZOf (mesh_dim : Nat) : Bool := mesh_dim == 2

/-- The degree dispatch of lines 48-55: degree 1 selects the pair of the
line kind and the triangle kind, degree 2 the pair of the line3 kind and
the triangle6 kind, and any other degree reaches the raise on line 55,
modelled as `none`.  The first component is the kind extracted first
(the boundary kind), the second the volume kind. -/
def kindsForDeg (deg : Nat) : Option (String × String) :=
  if deg = 1 then some ("line", "triangle")
  else if deg = 2 then some ("line3", "triangle6")
  else none

/-- The externally visible steps of one run, in execution order:
argument validation ran, the input file was read, `create_mesh` was
called for a kind, an output file was written, the completion notice was
printed. -/
inductive Event where
  | validate
  | readInput (path : List Char)
  | extracted (kind : String)
  | wrote (path : List Char)
  | notedDone
  deriving DecidableEq

/-- The terminal outcome of one run: success, or the uncaught exception
that aborted it. -/
inductive Outcome where
  | ok
  | errInputExt
  | errOutputExt
  | errRead
  | errNotImplemented
  | errExtract (kind : String)
  | errWrite (path : List Char)
  deriving DecidableEq

/-- `main` (lines 24-60 of the source), as a function of the read oracle
(what `meshio.read` returns for a path, `none` meaning it raises), the
write oracle (whether `meshio.write` to a path succeeds) and the parsed
arguments.  Returns the ordered trace of performed steps and the
outcome; a `wrote` event is recorded only for a completed write. -/
def mainRun (readMesh : List Char → Option SourceMesh) (writeOk : List Char → Bool)
    (args : Args) : List Event × Outcome :=
  if pyEndsWith mshSuffix args.mesh_full_path = false then
    ([Event.validate], Outcome.errInputExt)
  else if pyEndsWith xdmfSuffix args.output_full_path = false then
    ([Event.validate], Outcome.errOutputExt)
  else
    match readMesh args.mesh_full_path with
    | none => ([Event.validate, Event.readInput args.mesh_full_path], Outcome.errRead)
    | some msh =>
      match kindsForDeg args.deg with
      | none =>
        ([Event.validate, Event.readInput args.mesh_full_path], Outcome.errNotImplemented)
      | some (lineKind, triangleKind) =>
        match create_mesh msh lineKind (pruneZOf args.mesh_dim) with
        | none =>
          ([Event.validate, Event.readInput args.mesh_full_path,
            Event.extracted lineKind], Outcome.errExtract lineKind)
        | some _line_mesh =>
          match create_mesh msh triangleKind (pruneZOf args.mesh_dim) with
          | none =>
            ([Event.validate, Event.readInput args.mesh_full_path,
              Event.extracted lineKind, Event.extracted triangleKind],
             Outcome.errExtract triangleKind)
          | some _triangle_mesh =>
            if writeOk args.output_full_path = false then
              ([Event.validate, Event.readInput args.mesh_full_path,
                Event.extracted lineKind, Event.extracted triangleKind],
               Outcome.errWrite args.output_full_path)
            else if writeOk (pyReplaceXdmf args.output_full_path) = false then
              ([Event.validate, Event.readInput args.mesh_full_path,
                Event.extracted lineKind, Event.extracted triangleKind,
                Event.wrote args.output_full_path],
               Outcome.errWrite (pyReplaceXdmf args.output_full_path))
            else
              ([Event.validate, Event.readInput args.mesh_full_path,
                Event.extracted lineKind, Event.extracted triangleKind,
                Event.wrote args.output_full_path,
                Event.wrote (pyReplaceXdmf args.output_full_path),
                Event.notedDone],
               Outcome.ok)

/-- Recognizer for write events, used to count produced files. -/
def isWrote : Event → Bool
  | Event.wrote _ => true
  | _ => false

/-! ## Properties of the facet-path derivation -/

/-- Replacement of the empty string is the empty string, at any fuel. -/
theorem replaceAux_nil (fuel : Nat) : replaceAux fuel [] = [] := by
  cases fuel <;> rfl

/-- Every list of characters is a prefix of itself. -/
theorem isPrefixOf_self (l : List Char) : l.isPrefixOf l = true := by
  induction l with
  | nil => rfl
  | cons c cs ih => simp [List.isPrefixOf, ih]

/-- The replacement string has eleven characters. -/
theorem facetRepl_length : facetRepl.length = 11 := rfl

/-- The pattern string has five characters. -/
theorem xdmfSuffix_length : xdmfSuffix.length = 5 := rfl

/-- With enough fuel, replacement never shortens the string (the
replacement string is longer than the pattern). -/
theorem replaceAux_length_ge (fuel : Nat) :
    ∀ s : List Char, s.length ≤ fuel → s.length ≤ (replaceAux fuel s).length := by
  induction fuel with
  | zero =>
    intro s hs
    have hnil : s = [] := List.length_eq_zero.mp (Nat.le_zero.mp hs)
    subst hnil
    simp [replaceAux]
  | succ fuel ih =>
    intro s hs
    cases s with
    | nil => simp [replaceAux]
    | cons c rest =>
      by_cases hp : xdmfSuffix.isPrefixOf (c :: rest) = true
      · have h1 : (rest.drop 4).length ≤ fuel := by
          simp only [List.length_drop]
          simp only [List.length_cons] at hs
          omega
        have h2 := ih (rest.drop 4) h1
        simp only [replaceAux, hp, if_true, List.length_append, facetRepl_length,
          List.length_cons, List.length_drop] at h2 ⊢
        omega
      · have h2 := ih rest (by simp only [List.length_cons] at hs; omega)
        simp [replaceAux, hp]
        omega

/-- With enough fuel, replacement strictly lengthens any string that
ends with the pattern. -/
theorem replaceAux_length_gt (fuel : Nat) :
    ∀ s : List Char, s.length ≤ fuel → (∃ t, t ++ xdmfSuffix = s) →
      s.length < (replaceAux fuel s).length := by
  induction fuel with
  | zero =>
    intro s hs hex
    obtain ⟨t, ht⟩ := hex
    exfalso
    have hlen := congrArg List.length ht
    simp [xdmfSuffix] at hlen
    omega
  | succ fuel ih =>
    intro s hs hex
    obtain ⟨t, ht⟩ := hex
    cases s with
    | nil =>
      exfalso
      have hlen := congrArg List.length ht
      simp [xdmfSuffix] at hlen
    | cons c rest =>
      by_cases hp : xdmfSuffix.isPrefixOf (c :: rest) = true
      · have h1 : (rest.drop 4).length ≤ fuel := by
          simp only [List.length_drop]
          simp only [List.length_cons] at hs
          omega
        have h2 := replaceAux_length_ge fuel (rest.drop 4) h1
        simp only [replaceAux, hp, if_true, List.length_append, facetRepl_length,
          List.length_cons, List.length_drop] at h2 ⊢
        omega
      · cases t with
        | nil =>
          exfalso
          apply hp
          simp only [List.nil_append] at ht
          rw [← ht]
          exact isPrefixOf_self xdmfSuffix
        | cons a t2 =>
          simp only [List.cons_append, List.cons.injEq] at ht
          have h3 := ih rest (by simp only [List.length_cons] at hs; omega) ⟨t2, ht.2⟩
          simp [replaceAux, hp]
          omega

/-- A string accepted by the Python endswith check decomposes as some
front part followed by the suffix. -/
theorem pyEndsWith_eq (pat s : List Char) (h : pyEndsWith pat s = true) :
    ∃ t, t ++ pat = s := by
  unfold pyEndsWith at h
  rw [beq_iff_eq] at h
  have hsplit := List.take_append_drop (s.length - pat.length) s
  rw [h] at hsplit
  exact ⟨s.take (s.length - pat.length), hsplit⟩

/-- When the pattern occurs nowhere before the final suffix, replacement
rewrites exactly that final suffix. -/
theorem replaceAux_unique_final (fuel : Nat) :
    ∀ t : List Char, (t ++ xdmfSuffix).length ≤ fuel →
      (∀ i, i < t.length → xdmfSuffix.isPrefixOf ((t ++ xdmfSuffix).drop i) = false) →
      replaceAux fuel (t ++ xdmfSuffix) = t ++ facetRepl := by
  induction fuel with
  | zero =>
    intro t hlen _
    exfalso
    simp [xdmfSuffix] at hlen
  | succ fuel ih =>
    intro t hlen hocc
    cases t with
    | nil =>
      simp only [List.nil_append]
      have hcond : xdmfSuffix.isPrefixOf ('.' :: ['x', 'd', 'm', 'f']) = true := by decide
      calc replaceAux (fuel + 1) xdmfSuffix
          = facetRepl ++ replaceAux fuel ((['x', 'd', 'm', 'f'] : List Char).drop 4) := by
            rw [show (xdmfSuffix : List Char) = '.' :: ['x', 'd', 'm', 'f'] from rfl]
            simp [replaceAux, hcond]
        _ = facetRepl := by
            rw [show (['x', 'd', 'm', 'f'] : List Char).drop 4 = [] from rfl]
            simp [replaceAux_nil]
    | cons a t2 =>
      have h0 := hocc 0 (by simp)
      simp only [List.drop_zero, List.cons_append] at h0
      have step : replaceAux (fuel + 1) (a :: (t2 ++ xdmfSuffix))
          = a :: replaceAux fuel (t2 ++ xdmfSuffix) := by
        simp [replaceAux, h0]
      rw [List.cons_append, step, ih t2 ?_ ?_]
      · simp
      · simp only [List.length_append, List.length_cons, xdmfSuffix_length] at hlen ⊢
        omega
      · intro i hi
        have := hocc (i + 1) (by simp only [List.length_cons]; omega)
        simpa using this

/-! ## Concrete inputs used to instantiate the theorems -/

/-- A small source mesh in the shape the spec scenario describes: one
line block tagged 2 and one triangle block tagged 1, three points with a
placeholder third coordinate. -/
def demoMesh : SourceMesh :=
  ⟨[[0, 0, 0], [1, 0, 0], [0, 1, 0]],
   [⟨"line", [[0, 1]]⟩, ⟨"triangle", [[0, 1, 2]]⟩],
   [("gmsh:physical", [[2], [1]])]⟩

/-- A read oracle under which every path reads as `demoMesh`. -/
def demoRead : List Char → Option SourceMesh := fun _ => some demoMesh

/-- A write oracle under which every write succeeds. -/
def demoWrite : List Char → Bool := fun _ => true

/-- Arguments of a representative valid invocation. -/
def demoArgs : Args :=
  ⟨['m', '.', 'm', 's', 'h'], ['o', '.', 'x', 'd', 'm', 'f'], 2, 1⟩

/-- An output path that passes validation but contains the substring
`.xdmf` twice: the characters of a-dot-x-d-m-f-dot-x-d-m-f. -/
def doubledPath : List Char :=
  ['a', '.', 'x', 'd', 'm', 'f', '.', 'x', 'd', 'm', 'f']

/-- Definition following the claim wording, for comparison with the
code: derive the facet path by replacing only the final `.xdmf` suffix
of the output path with `_facet.xdmf`. -/
def finalSuffixFacetPath (s : List Char) : List Char :=
  s.take (s.length - xdmfSuffix.length) ++ facetRepl

/-! ## Claim C1 -/

/-- Claim C1 as stated is false: on the validated output path
`a.xdmf.xdmf`, the code (Python replace, which rewrites every
occurrence) produces `a_facet.xdmf_facet.xdmf`, not the final-suffix
replacement `a.xdmf_facet.xdmf`. -/
theorem facet_replace_counterexample :
    pyEndsWith xdmfSuffix doubledPath = true ∧
    pyReplaceXdmf doubledPath = ['a'] ++ facetRepl ++ facetRepl ∧
    finalSuffixFacetPath doubledPath = ['a'] ++ xdmfSuffix ++ facetRepl ∧
    pyReplaceXdmf doubledPath ≠ finalSuffixFacetPath doubledPath := by decide

/-- Claim C1, amended: the facet path is obtained by replacing every
non-overlapping occurrence of `.xdmf`, scanned left to right; when the
final suffix is the only occurrence, this coincides with replacing the
final `.xdmf` suffix. -/
theorem facet_replace_final_when_unique (t : List Char)
    (hocc : ∀ i, i < t.length → xdmfSuffix.isPrefixOf ((t ++ xdmfSuffix).drop i) = false) :
    pyReplaceXdmf (t ++ xdmfSuffix) = t ++ facetRepl :=
  replaceAux_unique_final (t ++ xdmfSuffix).length t (Nat.le_refl _) hocc

/-- Witness for the amended claim C1 on the output path `out.xdmf`. -/
theorem facet_replace_final_when_unique_witness :
    pyReplaceXdmf (['o', 'u', 't'] ++ xdmfSuffix) = ['o', 'u', 't'] ++ facetRepl :=
  facet_replace_final_when_unique ['o', 'u', 't'] (by decide)

/-! ## Claim C10 -/

/-- Claim C10: for every output path that passes validation (ends with
`.xdmf`), the derived facet path differs from the output path, so the
two writes never target the same file. -/
theorem facet_path_differs (o : List Char) (h : pyEndsWith xdmfSuffix o = true) :
    pyReplaceXdmf o ≠ o := by
  obtain ⟨t, ht⟩ := pyEndsWith_eq xdmfSuffix o h
  have hgt := replaceAux_length_gt o.length o (Nat.le_refl _) ⟨t, ht⟩
  intro hEq
  unfold pyReplaceXdmf at hEq
  rw [hEq] at hgt
  omega

/-- Witness for claim C10 on the output path `o.xdmf`. -/
theorem facet_path_differs_witness :
    pyReplaceXdmf ['o', '.', 'x', 'd', 'm', 'f'] ≠ ['o', '.', 'x', 'd', 'm', 'f'] :=
  facet_path_differs ['o', '.', 'x', 'd', 'm', 'f'] (by decide)

/-! ## Case analysis of the entry point -/

/-- Exhaustive case analysis of `mainRun`: each disjunct records the
branch conditions of one control path together with the exact trace and
outcome of that path. -/
theorem mainRun_cases (r : List Char → Option SourceMesh) (w : List Char → Bool)
    (a : Args) :
    (pyEndsWith mshSuffix a.mesh_full_path = false ∧
      mainRun r w a = ([Event.validate], Outcome.errInputExt)) ∨
    (pyEndsWith xdmfSuffix a.output_full_path = false ∧
      mainRun r w a = ([Event.validate], Outcome.errOutputExt)) ∨
    (r a.mesh_full_path = none ∧
      mainRun r w a = ([Event.validate, Event.readInput a.mesh_full_path],
        Outcome.errRead)) ∨
    (kindsForDeg a.deg = none ∧
      mainRun r w a = ([Event.validate, Event.readInput a.mesh_full_path],
        Outcome.errNotImplemented)) ∨
    (∃ msh lk tk, r a.mesh_full_path = some msh ∧ kindsForDeg a.deg = some (lk, tk) ∧
      ((create_mesh msh lk (pruneZOf a.mesh_dim) = none ∧
         mainRun r w a = ([Event.validate, Event.readInput a.mesh_full_path,
           Event.extracted lk], Outcome.errExtract lk)) ∨
       (∃ lm, create_mesh msh lk (pruneZOf a.mesh_dim) = some lm ∧
         create_mesh msh tk (pruneZOf a.mesh_dim) = none ∧
         mainRun r w a = ([Event.validate, Event.readInput a.mesh_full_path,
           Event.extracted lk, Event.extracted tk], Outcome.errExtract tk)) ∨
       (∃ lm tm, create_mesh msh lk (pruneZOf a.mesh_dim) = some lm ∧
         create_mesh msh tk (pruneZOf a.mesh_dim) = some tm ∧
         ((w a.output_full_path = false ∧
            mainRun r w a = ([Event.validate, Event.readInput a.mesh_full_path,
              Event.extracted lk, Event.extracted tk],
              Outcome.errWrite a.output_full_path)) ∨
          (w a.output_full_path = true ∧
            w (pyReplaceXdmf a.output_full_path) = false ∧
            mainRun r w a = ([Event.validate, Event.readInput a.mesh_full_path,
              Event.extracted lk, Event.extracted tk,
              Event.wrote a.output_full_path],
              Outcome.errWrite (pyReplaceXdmf a.output_full_path))) ∨
          (w a.output_full_path = true ∧
            w (pyReplaceXdmf a.output_full_path) = true ∧
            mainRun r w a = ([Event.validate, Event.readInput a.mesh_full_path,
              Event.extracted lk, Event.extracted tk,
              Event.wrote a.output_full_path,
              Event.wrote (pyReplaceXdmf a.output_full_path), Event.notedDone],
              Outcome.ok)))))) := by
  cases h1 : pyEndsWith mshSuffix a.mesh_full_path with
  | false => exact Or.inl ⟨rfl, by simp [mainRun, h1]⟩
  | true =>
    cases h2 : pyEndsWith xdmfSuffix a.output_full_path with
    | false => exact Or.inr (Or.inl ⟨rfl, by simp [mainRun, h1, h2]⟩)
    | true =>
      cases h3 : r a.mesh_full_path with
      | none => exact Or.inr (Or.inr (Or.inl ⟨rfl, by simp [mainRun, h1, h2, h3]⟩))
      | some msh =>
        cases h4 : kindsForDeg a.deg with
        | none =>
          exact Or.inr (Or.inr (Or.inr (Or.inl ⟨rfl, by simp [mainRun, h1, h2, h3, h4]⟩)))
        | some kinds =>
          obtain ⟨lk, tk⟩ := kinds
          cases h5 : create_mesh msh lk (pruneZOf a.mesh_dim) with
          | none =>
            refine Or.inr (Or.inr (Or.inr (Or.inr
              ⟨msh, lk, tk, rfl, rfl, Or.inl ⟨h5, ?_⟩⟩)))
            simp [mainRun, h1, h2, h3, h4, h5]
          | some lm =>
            cases h6 : create_mesh msh tk (pruneZOf a.mesh_dim) with
            | none =>
              refine Or.inr (Or.inr (Or.inr (Or.inr
                ⟨msh, lk, tk, rfl, rfl, Or.inr (Or.inl ⟨lm, h5, h6, ?_⟩)⟩)))
              simp [mainRun, h1, h2, h3, h4, h5, h6]
            | some tm =>
              cases h7 : w a.output_full_path with
              | false =>
                refine Or.inr (Or.inr (Or.inr (Or.inr
                  ⟨msh, lk, tk, rfl, rfl, Or.inr (Or.inr
                    ⟨lm, tm, h5, h6, Or.inl ⟨rfl, ?_⟩⟩)⟩)))
                simp [mainRun, h1, h2, h3, h4, h5, h6, h7]
              | true =>
                cases h8 : w (pyReplaceXdmf a.output_full_path) with
                | false =>
                  refine Or.inr (Or.inr (Or.inr (Or.inr
                    ⟨msh, lk, tk, rfl, rfl, Or.inr (Or.inr
                      ⟨lm, tm, h5, h6, Or.inr (Or.inl ⟨rfl, rfl, ?_⟩)⟩)⟩)))
                  simp [mainRun, h1, h2, h3, h4, h5, h6, h7, h8]
                | true =>
                  refine Or.inr (Or.inr (Or.inr (Or.inr
                    ⟨msh, lk, tk, rfl, rfl, Or.inr (Or.inr
                      ⟨lm, tm, h5, h6, Or.inr (Or.inr ⟨rfl, rfl, ?_⟩)⟩)⟩)))
                  simp [mainRun, h1, h2, h3, h4, h5, h6, h7, h8]

/-- Inversion of the degree dispatch: a selected pair of kinds pins the
degree down to 1 or 2 and the kinds to the corresponding table row. -/
theorem kindsForDeg_some (d : Nat) (lk tk : String)
    (h : kindsForDeg d = some (lk, tk)) :
    (d = 1 ∧ lk = "line" ∧ tk = "triangle") ∨
    (d = 2 ∧ lk = "line3" ∧ tk = "triangle6") := by
  unfold kindsForDeg at h
  by_cases h1 : d = 1
  · rw [if_pos h1] at h
    simp only [Option.some.injEq, Prod.mk.injEq] at h
    exact Or.inl ⟨h1, h.1.symm, h.2.symm⟩
  · rw [if_neg h1] at h
    by_cases h2 : d = 2
    · rw [if_pos h2] at h
      simp only [Option.some.injEq, Prod.mk.injEq] at h
      exact Or.inr ⟨h2, h.1.symm, h.2.symm⟩
    · rw [if_neg h2] at h
      exact absurd h (by simp)

/-- A kind equal to one component of a selected pair is one of the four
table entries, matching the degree. -/
theorem extracted_kind_cases (d : Nat) (lk tk k : String)
    (h4 : kindsForDeg d = some (lk, tk)) (hk2 : k = lk ∨ k = tk) :
    (d = 1 ∧ (k = "line" ∨ k = "triangle")) ∨
    (d = 2 ∧ (k = "line3" ∨ k = "triangle6")) := by
  rcases kindsForDeg_some d lk tk h4 with ⟨hd, hl, ht⟩ | ⟨hd, hl, ht⟩
  · exact Or.inl ⟨hd, hk2.imp (fun h => h.trans hl) (fun h => h.trans ht)⟩
  · exact Or.inr ⟨hd, hk2.imp (fun h => h.trans hl) (fun h => h.trans ht)⟩

/-! ## Claim C2 -/

/-- Claim C2: in every run, the trace splits into a write-free phase
followed by an extraction-free phase; when any write happened, both
selected kinds were extracted in the first phase; when an extraction
failed, nothing was written; and a successful run writes exactly two
files. -/
theorem writes_after_extraction (r : List Char → Option SourceMesh)
    (w : List Char → Bool) (a : Args) :
    (∀ k, (mainRun r w a).2 = Outcome.errExtract k →
       ∀ q, Event.wrote q ∉ (mainRun r w a).1) ∧
    ((mainRun r w a).2 = Outcome.ok →
       ((mainRun r w a).1.filter isWrote).length = 2) ∧
    (∃ pre post, (mainRun r w a).1 = pre ++ post ∧
       (∀ q, Event.wrote q ∉ pre) ∧ (∀ k, Event.extracted k ∉ post) ∧
       ((∃ q, Event.wrote q ∈ post) →
          ∃ lk tk, kindsForDeg a.deg = some (lk, tk) ∧
            Event.extracted lk ∈ pre ∧ Event.extracted tk ∈ pre)) := by
  rcases mainRun_cases r w a with ⟨h1, hm⟩ | ⟨h2, hm⟩ | ⟨h3, hm⟩ | ⟨h4, hm⟩ |
    ⟨msh, lk, tk, h3, h4, ⟨h5, hm⟩ | ⟨lm, h5, h6, hm⟩ |
      ⟨lm, tm, h5, h6, ⟨h7, hm⟩ | ⟨h7, h8, hm⟩ | ⟨h7, h8, hm⟩⟩⟩
  · refine ⟨?_, ?_, [Event.validate], [], ?_, ?_, ?_, ?_⟩ <;> simp [hm, isWrote]
  · refine ⟨?_, ?_, [Event.validate], [], ?_, ?_, ?_, ?_⟩ <;> simp [hm, isWrote]
  · refine ⟨?_, ?_, [Event.validate, Event.readInput a.mesh_full_path], [],
      ?_, ?_, ?_, ?_⟩ <;> simp [hm, isWrote]
  · refine ⟨?_, ?_, [Event.validate, Event.readInput a.mesh_full_path], [],
      ?_, ?_, ?_, ?_⟩ <;> simp [hm, isWrote]
  · refine ⟨?_, ?_, [Event.validate, Event.readInput a.mesh_full_path,
      Event.extracted lk], [], ?_, ?_, ?_, ?_⟩ <;> simp [hm, isWrote]
  · refine ⟨?_, ?_, [Event.validate, Event.readInput a.mesh_full_path,
      Event.extracted lk, Event.extracted tk], [], ?_, ?_, ?_, ?_⟩ <;>
      simp [hm, isWrote]
  · refine ⟨?_, ?_, [Event.validate, Event.readInput a.mesh_full_path,
      Event.extracted lk, Event.extracted tk], [], ?_, ?_, ?_, ?_⟩ <;>
      simp [hm, isWrote]
  · refine ⟨?_, ?_, [Event.validate, Event.readInput a.mesh_full_path,
      Event.extracted lk, Event.extracted tk], [Event.wrote a.output_full_path],
      ?_, ?_, ?_, ?_⟩
    · intro k hk
      rw [hm] at hk
      simp at hk
    · intro hk
      rw [hm] at hk
      simp at hk
    · rw [hm]
      rfl
    · intro q
      simp
    · intro k
      simp
    · intro _
      exact ⟨lk, tk, h4, by simp, by simp⟩
  · refine ⟨?_, ?_, [Event.validate, Event.readInput a.mesh_full_path,
      Event.extracted lk, Event.extracted tk],
      [Event.wrote a.output_full_path,
       Event.wrote (pyReplaceXdmf a.output_full_path), Event.notedDone],
      ?_, ?_, ?_, ?_⟩
    · intro k hk
      rw [hm] at hk
      simp at hk
    · intro _
      rw [hm]
      simp [isWrote]
    · rw [hm]
      rfl
    · intro q
      simp
    · intro k
      simp
    · intro _
      exact ⟨lk, tk, h4, by simp, by simp⟩

/-- Witness for claim C2: the representative successful run writes
exactly two files. -/
theorem writes_after_extraction_witness :
    ((mainRun demoRead demoWrite demoArgs).1.filter isWrote).length = 2 :=
  (writes_after_extraction demoRead demoWrite demoArgs).2.1 (by decide)

/-! ## Claim C3 -/

/-- Claim C3: degree 1 selects exactly the kinds line and triangle,
degree 2 exactly line3 and triangle6, and every kind passed to
extraction in any run is one of the pair selected by the degree. -/
theorem kinds_by_degree (r : List Char → Option SourceMesh)
    (w : List Char → Bool) (a : Args) (k : String) :
    kindsForDeg 1 = some ("line", "triangle") ∧
    kindsForDeg 2 = some ("line3", "triangle6") ∧
    (Event.extracted k ∈ (mainRun r w a).1 →
      (a.deg = 1 ∧ (k = "line" ∨ k = "triangle")) ∨
      (a.deg = 2 ∧ (k = "line3" ∨ k = "triangle6"))) := by
  refine ⟨rfl, rfl, ?_⟩
  intro hk
  rcases mainRun_cases r w a with ⟨h1, hm⟩ | ⟨h2, hm⟩ | ⟨h3, hm⟩ | ⟨h4, hm⟩ |
    ⟨msh, lk, tk, h3, h4, ⟨h5, hm⟩ | ⟨lm, h5, h6, hm⟩ |
      ⟨lm, tm, h5, h6, ⟨h7, hm⟩ | ⟨h7, h8, hm⟩ | ⟨h7, h8, hm⟩⟩⟩
  · rw [hm] at hk
    simp at hk
  · rw [hm] at hk
    simp at hk
  · rw [hm] at hk
    simp at hk
  · rw [hm] at hk
    simp at hk
  · rw [hm] at hk
    simp at hk
    exact extracted_kind_cases a.deg lk tk k h4 (Or.inl hk)
  · rw [hm] at hk
    simp at hk
    exact extracted_kind_cases a.deg lk tk k h4 hk
  · rw [hm] at hk
    simp at hk
    exact extracted_kind_cases a.deg lk tk k h4 hk
  · rw [hm] at hk
    simp at hk
    exact extracted_kind_cases a.deg lk tk k h4 hk
  · rw [hm] at hk
    simp at hk
    exact extracted_kind_cases a.deg lk tk k h4 hk

/-- Witness for claim C3 on the representative run, which extracts the
line kind. -/
theorem kinds_by_degree_witness :
    (demoArgs.deg = 1 ∧ ("line" = "line" ∨ "line" = "triangle")) ∨
    (demoArgs.deg = 2 ∧ ("line" = "line3" ∨ "line" = "triangle6")) :=
  (kinds_by_degree demoRead demoWrite demoArgs "line").2.2 (by decide)

/-! ## Claim C5 -/

/-- Claim C5 as stated is false: on a representative successful run the
line (boundary) kind is extracted before the triangle (volume) kind, so
the trace does not follow the claimed order of extracting the volume
kind first. -/
theorem run_order_counterexample :
    (mainRun demoRead demoWrite demoArgs).2 = Outcome.ok ∧
    (mainRun demoRead demoWrite demoArgs).1 = [Event.validate,
      Event.readInput ['m', '.', 'm', 's', 'h'], Event.extracted "line",
      Event.extracted "triangle", Event.wrote ['o', '.', 'x', 'd', 'm', 'f'],
      Event.wrote ['o', '_', 'f', 'a', 'c', 'e', 't', '.', 'x', 'd', 'm', 'f'],
      Event.notedDone] ∧
    (mainRun demoRead demoWrite demoArgs).1 ≠ [Event.validate,
      Event.readInput ['m', '.', 'm', 's', 'h'], Event.extracted "triangle",
      Event.extracted "line", Event.wrote ['o', '.', 'x', 'd', 'm', 'f'],
      Event.wrote ['o', '_', 'f', 'a', 'c', 'e', 't', '.', 'x', 'd', 'm', 'f'],
      Event.notedDone] := by decide

/-- Claim C5, amended: every successful run validates, reads the input,
extracts the boundary kind, then extracts the volume kind, then writes
the volume mesh to the output path, then writes the boundary mesh to the
derived facet path, then notes completion. -/
theorem run_order (r : List Char → Option SourceMesh) (w : List Char → Bool)
    (a : Args) (h : (mainRun r w a).2 = Outcome.ok) :
    ∃ lk tk, kindsForDeg a.deg = some (lk, tk) ∧
      (mainRun r w a).1 = [Event.validate, Event.readInput a.mesh_full_path,
        Event.extracted lk, Event.extracted tk, Event.wrote a.output_full_path,
        Event.wrote (pyReplaceXdmf a.output_full_path), Event.notedDone] := by
  rcases mainRun_cases r w a with ⟨h1, hm⟩ | ⟨h2, hm⟩ | ⟨h3, hm⟩ | ⟨h4, hm⟩ |
    ⟨msh, lk, tk, h3, h4, ⟨h5, hm⟩ | ⟨lm, h5, h6, hm⟩ |
      ⟨lm, tm, h5, h6, ⟨h7, hm⟩ | ⟨h7, h8, hm⟩ | ⟨h7, h8, hm⟩⟩⟩
  · rw [hm] at h
    simp at h
  · rw [hm] at h
    simp at h
  · rw [hm] at h
    simp at h
  · rw [hm] at h
    simp at h
  · rw [hm] at h
    simp at h
  · rw [hm] at h
    simp at h
  · rw [hm] at h
    simp at h
  · rw [hm] at h
    simp at h
  · exact ⟨lk, tk, h4, by rw [hm]⟩

/-- Witness for the amended claim C5 on the representative run. -/
theorem run_order_witness :
    (mainRun demoRead demoWrite demoArgs).1 = [Event.validate,
      Event.readInput ['m', '.', 'm', 's', 'h'], Event.extracted "line",
      Event.extracted "triangle", Event.wrote ['o', '.', 'x', 'd', 'm', 'f'],
      Event.wrote (pyReplaceXdmf ['o', '.', 'x', 'd', 'm', 'f']),
      Event.notedDone] := by
  obtain ⟨lk, tk, hkk, htr⟩ := run_order demoRead demoWrite demoArgs (by decide)
  have h2 : (some ("line", "triangle") : Option (String × String)) = some (lk, tk) := hkk
  simp only [Option.some.injEq, Prod.mk.injEq] at h2
  rw [htr, ← h2.1, ← h2.2]
  rfl

/-! ## Claim C6 -/

/-- Claim C6: when neither path has its required extension, the run
aborts with the input-extension validation error and its trace contains
no read of the input file. -/
theorem invalid_extension_aborts (r : List Char → Option SourceMesh)
    (w : List Char → Bool) (a : Args)
    (h1 : pyEndsWith mshSuffix a.mesh_full_path = false)
    (_h2 : pyEndsWith xdmfSuffix a.output_full_path = false) :
    mainRun r w a = ([Event.validate], Outcome.errInputExt) ∧
    ∀ p, Event.readInput p ∉ (mainRun r w a).1 := by
  have hm : mainRun r w a = ([Event.validate], Outcome.errInputExt) := by
    simp [mainRun, h1]
  exact ⟨hm, fun p => by simp [hm]⟩

/-- Arguments whose two paths both have the wrong extension. -/
def badArgs : Args :=
  ⟨['m', '.', 't', 'x', 't'], ['o', '.', 't', 'x', 't'], 2, 1⟩

/-- Witness for claim C6 on a run with two wrong extensions. -/
theorem invalid_extension_aborts_witness :
    mainRun demoRead demoWrite badArgs = ([Event.validate], Outcome.errInputExt) :=
  (invalid_extension_aborts demoRead demoWrite badArgs (by decide) (by decide)).1

/-! ## Claim C9 -/

/-- Claim C9: when the degree passed the argparse restriction to 1 or 2,
the degree dispatch selects a pair of kinds and the not-implemented
branch is unreachable. -/
theorem deg_fallback_unreachable (r : List Char → Option SourceMesh)
    (w : List Char → Bool) (a : Args) (h : a.deg = 1 ∨ a.deg = 2) :
    kindsForDeg a.deg ≠ none ∧ (mainRun r w a).2 ≠ Outcome.errNotImplemented := by
  have hk : kindsForDeg a.deg ≠ none := by
    rcases h with h | h <;> rw [h] <;> simp [kindsForDeg]
  refine ⟨hk, ?_⟩
  rcases mainRun_cases r w a with ⟨h1, hm⟩ | ⟨h2, hm⟩ | ⟨h3, hm⟩ | ⟨h4, hm⟩ |
    ⟨msh, lk, tk, h3, h4, ⟨h5, hm⟩ | ⟨lm, h5, h6, hm⟩ |
      ⟨lm, tm, h5, h6, ⟨h7, hm⟩ | ⟨h7, h8, hm⟩ | ⟨h7, h8, hm⟩⟩⟩
  · rw [hm]
    simp
  · rw [hm]
    simp
  · rw [hm]
    simp
  · exact absurd h4 hk
  · rw [hm]
    simp
  · rw [hm]
    simp
  · rw [hm]
    simp
  · rw [hm]
    simp
  · rw [hm]
    simp

/-- Witness for claim C9 at degree 1. -/
theorem deg_fallback_unreachable_witness :
    kindsForDeg demoArgs.deg ≠ none ∧
    (mainRun demoRead demoWrite demoArgs).2 ≠ Outcome.errNotImplemented :=
  deg_fallback_unreachable demoRead demoWrite demoArgs (Or.inl rfl)

/-! ## Claim C4 -/

/-- Claim C4: the prune flag is true exactly for declared dimension 2
and false exactly for 3, irrespective of coordinate values; with
pruning, every output point of `create_mesh` has exactly two components
(the source points having at least two components, as 2D or 3D
coordinates do); without pruning, the output points are the source
points unchanged. -/
theorem prune_z_policy (d : Nat) (m : SourceMesh) (ct : String) (om : OutputMesh) :
    ((d = 2 ∨ d = 3) → ((pruneZOf d = true ↔ d = 2) ∧ (pruneZOf d = false ↔ d = 3))) ∧
    (create_mesh m ct true = some om → (∀ p ∈ m.points, 2 ≤ p.length) →
      ∀ q ∈ om.points, q.length = 2) ∧
    (create_mesh m ct false = some om → om.points = m.points) := by
  refine ⟨?_, ?_, ?_⟩
  · rintro (hd | hd) <;> subst hd <;> simp [pruneZOf]
  · intro h hp q hq
    unfold create_mesh at h
    cases hcd : get_cell_data m "gmsh:physical" ct with
    | none =>
      rw [hcd] at h
      exact absurd h (by simp)
    | some cd =>
      rw [hcd] at h
      simp only [if_true, Option.some.injEq] at h
      subst h
      simp only [List.mem_map] at hq
      obtain ⟨p, hpm, hpq⟩ := hq
      rw [← hpq, List.length_take]
      have := hp p hpm
      omega
  · intro h
    unfold create_mesh at h
    cases hcd : get_cell_data m "gmsh:physical" ct with
    | none =>
      rw [hcd] at h
      exact absurd h (by simp)
    | some cd =>
      rw [hcd] at h
      simp only [Option.some.injEq] at h
      subst h
      rfl

/-- The output mesh produced by extracting the line kind of the
representative mesh with pruning on. -/
def demoLinePruned : OutputMesh :=
  ⟨demoMesh.points.map (fun p => p.take 2), [("line", [[0, 1]])],
   [("name_to_read", [[2]])]⟩

/-- Witness for claim C4 at dimension 2 on the representative mesh. -/
theorem prune_z_policy_witness :
    (pruneZOf 2 = true ↔ (2 : Nat) = 2) ∧
    (∀ q ∈ demoLinePruned.points, q.length = 2) :=
  ⟨((prune_z_policy 2 demoMesh "line" demoLinePruned).1 (Or.inl rfl)).1,
   (prune_z_policy 2 demoMesh "line" demoLinePruned).2.1 rfl (by decide)⟩

/-! ## Claim C7 -/

/-- Alignment transfer: when each cell block has as many elements as its
tag array, the concatenated connectivity and the concatenated tags of
any requested kind have equal lengths. -/
theorem aligned_concat_length (ct : String) :
    ∀ (cs : List CellBlock) (ds : List (List Int)),
      List.Forall₂ (fun b d => b.data.length = List.length d) cs ds →
      (((cs.filter (fun b => b.kind == ct)).map (fun b => b.data)).flatten).length
        = ((((cs.zip ds).filter (fun pr => pr.1.kind == ct)).map
            (fun pr => pr.2)).flatten).length := by
  intro cs ds h
  induction h with
  | nil => rfl
  | @cons b d cs2 ds2 hbd htl ih =>
    simp only [List.zip_cons_cons, List.filter_cons]
    cases hkind : b.kind == ct with
    | true =>
      simp only [hkind, if_true, List.map_cons, List.flatten_cons, List.length_append]
      omega
    | false =>
      simp only [hkind, Bool.false_eq_true, if_false]
      exact ih

/-- Claim C7: every OutputMesh produced by `create_mesh` has a
single-entry cells mapping from the target kind to its connectivity and
a single-entry cell-data mapping under the fixed key wrapping one tag
array; for a source mesh whose tag arrays are positionally aligned with
its cell blocks (as the data model requires), that tag array is as long
as the connectivity. -/
theorem output_mesh_invariant (m : SourceMesh) (ct : String) (pz : Bool)
    (om : OutputMesh) (ds : List (List Int))
    (hlk : List.lookup "gmsh:physical" m.cell_data = some ds)
    (hal : List.Forall₂ (fun b d => b.data.length = List.length d) m.cells ds)
    (h : create_mesh m ct pz = some om) :
    ∃ tags, om.cells = [(ct, get_cells_type m ct)] ∧
      om.cell_data = [("name_to_read", [tags])] ∧
      tags.length = (get_cells_type m ct).length := by
  unfold create_mesh at h
  cases hcd : get_cell_data m "gmsh:physical" ct with
  | none =>
    rw [hcd] at h
    exact absurd h (by simp)
  | some cd =>
    rw [hcd] at h
    simp only [Option.some.injEq] at h
    subst h
    refine ⟨cd, rfl, rfl, ?_⟩
    simp only [get_cell_data, hlk] at hcd
    by_cases hemp : (((m.cells.zip ds).filter (fun pr => pr.1.kind == ct)).map
        (fun pr => pr.2)).isEmpty = true
    · rw [if_pos hemp] at hcd
      exact absurd hcd (by simp)
    · rw [if_neg hemp] at hcd
      simp only [Option.some.injEq] at hcd
      rw [← hcd]
      unfold get_cells_type
      exact (aligned_concat_length ct m.cells ds hal).symm

/-- The output mesh produced by extracting the line kind of the
representative mesh without pruning. -/
def demoLineFull : OutputMesh :=
  ⟨demoMesh.points, [("line", [[0, 1]])], [("name_to_read", [[2]])]⟩

/-- Witness for claim C7 on the representative mesh. -/
theorem output_mesh_invariant_witness :
    ∃ tags, demoLineFull.cells = [("line", get_cells_type demoMesh "line")] ∧
      demoLineFull.cell_data = [("name_to_read", [tags])] ∧
      tags.length = (get_cells_type demoMesh "line").length :=
  output_mesh_invariant demoMesh "line" false demoLineFull [[2], [1]] rfl
    (List.Forall₂.cons rfl (List.Forall₂.cons rfl List.Forall₂.nil)) rfl

/-! ## Claim C8 -/

/-- Claim C8: `create_mesh` leaves the source mesh unchanged — the
state-passing embedding returns the very source mesh alongside a result
that agrees with the direct embedding, whether or not extraction
succeeds. -/
theorem create_mesh_no_mutation (m : SourceMesh) (ct : String) (pz : Bool) :
    (create_mesh_st m ct pz).1 = m ∧
    (create_mesh_st m ct pz).2 = create_mesh m ct pz := by
  cases hcd : get_cell_data m "gmsh:physical" ct with
  | none =>
    constructor <;>
      simp [create_mesh_st, get_cells_type_st, get_cell_data_st, create_mesh, hcd]
  | some cd =>
    constructor <;>
      simp [create_mesh_st, get_cells_type_st, get_cell_data_st, create_mesh, hcd]
